import Mathlib

set_option maxRecDepth 10000

/-!
Shallow embedding of `src/bot.py` (tiagoad/mlbot): per-line status records,
the change detector and formatter in `MLBot.check` / `MLBot.state_change`,
the chunking and duplicate-retry logic of `MLBot.publish_twitter`, the
Telegram fan-out of `MLBot.publish_telegram`, the persistence flow of
`MLBot.check`, the parse loop of `MLBot.get_status`, and the environment
handling of the `__main__` block.  Network and filesystem effects are
modelled as oracle functions passed in as parameters; traces record the
externally visible calls that the Python code would perform.
-/

/-- Embeds the Python class `MLStatus`: one line's condition,
`{message: str, ok: bool}`. -/
structure MLStatus where
  message : String
  ok : Bool
deriving DecidableEq, Repr

/-- The names of `MLBot.LINES` (the `Line.emoji` field is never read by the
Python code, so only the names are modelled). -/
def LINES : List String := ["Amarela", "Vermelha", "Azul", "Verde"]

/-- `MLBot.STRINGS["LINE"]`. -/
def STRINGS_LINE : String := "Linha"

/-- The glyph `state_change` picks when `status.ok` is true (`'✅'`). -/
def okGlyph : String := "✅"

/-- The glyph `state_change` picks when `status.ok` is false
(`'⚠️'`). -/
def warnGlyph : String := "⚠️"

/-- Embeds `status.message[0].upper() + status.message[1:]` from
`state_change`.  On the empty string Python would raise `IndexError`; the
claims only concern non-empty messages, so the empty case is mapped to the
empty string. -/
def capitalizeFirst (s : String) : String :=
  match s.data with
  | [] => ""
  | c :: cs => String.mk (c.toUpper :: cs)

/-- Embeds `message.endswith('.')`: the last character is a period. -/
def endsWithDot (s : String) : Bool := s.data.getLast? == some ('.')

/-- Embeds the message construction of `MLBot.state_change`:
glyph selection, capitalisation, period termination and the
`"%s %s %s: %s"` composition. -/
def formatMessage (line : String) (st : MLStatus) : String :=
  let emoji := if st.ok then okGlyph else warnGlyph
  let m1 := capitalizeFirst st.message
  let m2 := if endsWithDot m1 then m1 else m1 ++ "."
  emoji ++ " " ++ STRINGS_LINE ++ " " ++ line ++ ": " ++ m2

/-- A snapshot: the per-line status mapping built by `get_status`, in
insertion (line-declaration) order.  Python dict keys are unique; the
association list preserves the iteration order of `status.items()`. -/
abbrev Snapshot := List (String × MLStatus)

/-- The per-line condition of the `if`/`elif` in `MLBot.check`:
notify when there is no previous entry (`last == None`), or when
`current.ok != last.ok`, or when `not current.ok and
current.message != last.message`. -/
def shouldNotify (prev : Snapshot) (line : String) (current : MLStatus) : Bool :=
  match prev.lookup line with
  | none => true
  | some last => (current.ok != last.ok) || (!current.ok && current.message != last.message)

/-- The ordered sequence of `(line, status)` pairs for which `MLBot.check`
invokes `state_change`, i.e. the detector's change events. -/
def detectEvents (prev : Snapshot) (cur : Snapshot) : Snapshot :=
  cur.filter (fun e => shouldNotify prev e.1 e.2)

/-- Embeds Python `message.split(" ")` (splitting on every single space,
keeping empty fragments) at the character level, accumulating the current
fragment in reverse. -/
def splitSpaceAux : List Char → List Char → List String
  | acc, [] => [String.mk acc.reverse]
  | acc, c :: cs =>
    if c = ' ' then String.mk acc.reverse :: splitSpaceAux [] cs
    else splitSpaceAux (c :: acc) cs

/-- Embeds `message.split(" ")`. -/
def splitSpace (s : String) : List String := splitSpaceAux [] s.data

/-- Embeds the inner `while` of `publish_twitter`: greedily extend `part`
with the next word as long as `len(part + " " + words[0]) < 270`; return the
finished part together with the unconsumed words. -/
def innerLoop : String → List String → String × List String
  | part, [] => (part, [])
  | part, w :: ws =>
    if (part ++ " " ++ w).length < 270 then innerLoop (part ++ " " ++ w) ws
    else (part, w :: ws)

/-- Embeds the outer `while len(words) > 0` of `publish_twitter`, fueled:
each round starts a fresh part from the timestamp and runs the inner loop.
`none` models non-termination (a round that consumes no word repeats
forever in Python; the fuel used below, one unit per word, is exhausted
exactly in that situation). -/
def chunkLoop (ts : String) : Nat → List String → Option (List String)
  | _, [] => some []
  | 0, _ :: _ => none
  | fuel + 1, w :: ws =>
    match innerLoop ts (w :: ws) with
    | (part, rest) =>
      match chunkLoop ts fuel rest with
      | some parts => some (part :: parts)
      | none => none

/-- The chunking step of `publish_twitter` applied to a whole message:
`words = message.split(" ")` followed by the packing loops. -/
def chunkMsg (ts : String) (msg : String) : Option (List String) :=
  chunkLoop ts (splitSpace msg).length (splitSpace msg)

/-- The string a packing round builds from a starting part and the words it
consumed: `part`, then `" " ++ w` for each word in order. -/
def appendWords (part : String) (g : List String) : String :=
  g.foldl (fun p w => p ++ " " ++ w) part

/-- A chunk made of the timestamp prefix and a group of words. -/
def chunkOf (ts : String) (g : List String) : String := appendWords ts g

/-- The length of a word list joined by single spaces: the "word-split total
length" of the message those words came from. -/
def wordSplitTotalLen (ws : List String) : Nat :=
  (ws.map String.length).sum + (ws.length - 1)

/-- Outcome of a `publish_twitter` call: normal return, a raised
`TwitterError` payload (`e.message`, a list of entries with optional
`code` fields), or non-termination. -/
inductive TwResult where
  | ok : TwResult
  | err : List (Option Nat) → TwResult
  | hang : TwResult
deriving DecidableEq, Repr

/-- Embeds `len(error) > 0 and error[0].get('code') == 187`. -/
def isDuplicateErr : List (Option Nat) → Bool
  | [] => false
  | c :: _ => c == some 187

/-- Embeds the `for part in parts` loop of `publish_twitter`.
`post` is the `self.twitter.PostUpdate` oracle (`none` = success, `some
payload` = raised `TwitterError` with that `e.message`); `retry` is the
result of the recursive `publish_twitter(message + '.')` call made on a
duplicate error.  Returns (outcome, recursive-call trace, attempted-post
trace). -/
def pubParts (pretend : Bool) (post : String → Option (List (Option Nat)))
    (retry : TwResult × List String × List String) :
    List String → TwResult × List String × List String
  | [] => (.ok, [], [])
  | p :: ps =>
    if pretend then pubParts pretend post retry ps
    else
      match post p with
      | none =>
        let r := pubParts pretend post retry ps
        (r.1, r.2.1, p :: r.2.2)
      | some errs =>
        if isDuplicateErr errs then
          if retry.1 = .ok then
            let r := pubParts pretend post retry ps
            (r.1, retry.2.1 ++ r.2.1, p :: (retry.2.2 ++ r.2.2))
          else (retry.1, retry.2.1, p :: retry.2.2)
        else (.err errs, [], [p])

/-- Embeds `MLBot.publish_twitter`, fueled for the duplicate-retry
recursion: chunk the message, then post the parts in order, retrying on a
duplicate error with `message + "."`.  The timestamp `ts` is the
`[%H:%M]`-formatted wall clock, taken as a fixed parameter.  Returns
(outcome, list of messages `publish_twitter` was invoked on, list of parts
passed to `PostUpdate`). -/
def publishTwitter (pretend : Bool) (post : String → Option (List (Option Nat)))
    (ts : String) : Nat → String → TwResult × List String × List String
  | 0, msg => (.hang, [msg], [])
  | fuel + 1, msg =>
    match chunkMsg ts msg with
    | none => (.hang, [msg], [])
    | some parts =>
      let r := pubParts pretend post (publishTwitter pretend post ts fuel (msg ++ ".")) parts
      (r.1, msg :: r.2.1, r.2.2)

/-- Embeds `MLBot.publish_telegram`: one `sendMessage` HTTP request per
configured destination, carrying the unmodified message.  The method never
consults the `pretend` flag. -/
def publishTelegram (destinations : List String) (message : String) : List (String × String) :=
  destinations.map (fun dst => (dst, message))

/-- Externally visible activity of one `MLBot.publish` call. -/
structure PublishTrace where
  logged : List String
  twitterPosts : List String
  telegramSends : List (String × String)
deriving DecidableEq, Repr

/-- Embeds `MLBot.publish`: log the message, publish to Twitter, then (if
Twitter did not raise) publish to Telegram. -/
def publishDispatch (pretend : Bool) (post : String → Option (List (Option Nat)))
    (ts : String) (fuel : Nat) (destinations : List String) (msg : String) : PublishTrace :=
  let tw := publishTwitter pretend post ts fuel msg
  { logged := [msg]
    twitterPosts := tw.2.2
    telegramSends :=
      match tw.1 with
      | .ok => publishTelegram destinations msg
      | _ => [] }

/-- Embeds the notification loop of `MLBot.check`: walk the fetched
snapshot in order; for each line that `shouldNotify`, run `state_change`
(format and publish).  `pub` abstracts `MLBot.publish` (`none` = returned
normally, `some e` = raised); the first raise aborts the loop, as the
exception propagates out of `check`. -/
def notifyLoop {ε : Type} (pub : String → Option ε) (prev : Snapshot) : Snapshot → Option ε
  | [] => none
  | (l, cur) :: rest =>
    if shouldNotify prev l cur then
      match pub (formatMessage l cur) with
      | some e => some e
      | none => notifyLoop pub prev rest
    else notifyLoop pub prev rest

/-- Embeds the tail of `MLBot.check` given an already fetched snapshot:
run the notification loop, then `self.status = status` and `pickle.dump`.
Returns (persisted state after the cycle, raised error if any): an
exception in the loop propagates before the save, leaving the persisted
state unchanged. -/
def check {ε : Type} (pub : String → Option ε) (prevState : Snapshot) (fetched : Snapshot) :
    Snapshot × Option ε :=
  match notifyLoop pub prevState fetched with
  | some e => (prevState, some e)
  | none => (fetched, none)

/-- Embeds `MLBot.get_status`: for each configured line, query the parsed
page (`page name = none` models `soup.select(...)` matching nothing, so
`[0]` raises `IndexError`; `some (text, ok)` models the element text and
the `'semperturbacao'` class test).  Any failure aborts the whole fetch. -/
def getStatus (page : String → Option (String × Bool)) :
    List String → Except Unit Snapshot
  | [] => .ok []
  | l :: ls =>
    match page l with
    | none => .error ()
    | some (msg, ok) =>
      match getStatus page ls with
      | .ok rest => .ok ((l, ⟨msg, ok⟩) :: rest)
      | .error e => .error e

/-- Why a `check` cycle aborted. -/
inductive CycleError (ε : Type) where
  | fetchFailed : CycleError ε
  | publishFailed : ε → CycleError ε
deriving DecidableEq, Repr

/-- Embeds a whole `MLBot.check` cycle including the `get_status` fetch:
a fetch/parse failure aborts before anything else, otherwise the
notification loop and the save run as in `check`. -/
def runCheck {ε : Type} (page : String → Option (String × Bool)) (lines : List String)
    (pub : String → Option ε) (prevState : Snapshot) : Snapshot × Option (CycleError ε) :=
  match getStatus page lines with
  | .error _ => (prevState, some .fetchFailed)
  | .ok cur =>
    match check pub prevState cur with
    | (st, some e) => (st, some (.publishFailed e))
    | (st, none) => (st, none)

/-- Outcome of the `__main__` block.  After the `except KeyError` handler
logs `'Environment variable %s not found.'`, control falls through to the
top-level `bot.check()` with `bot` never bound, which raises `NameError`. -/
inductive StartupOutcome where
  | checkRan : StartupOutcome
  | nameErrorCrash : String → StartupOutcome
deriving DecidableEq, Repr

/-- The environment keys the `try` block reads via `os.environ[...]`, in
evaluation order (the Twitter keys are skipped when `pretend`). -/
def requiredKeys (pretend : Bool) : List String :=
  "BOT_STATE_FILE" ::
    ((if pretend then [] else
      ["TWITTER_CONSUMER_KEY", "TWITTER_CONSUMER_SECRET",
       "TWITTER_ACCESS_TOKEN_KEY", "TWITTER_ACCESS_TOKEN_SECRET"]) ++
     ["TELEGRAM_KEY", "TELEGRAM_DESTINATION"])

/-- The first key whose `os.environ[...]` lookup raises `KeyError`. -/
def firstMissing (env : String → Option String) (keys : List String) : Option String :=
  keys.find? (fun k => (env k).isNone)

/-- Embeds the `__main__` block's configuration handling: `pretend` comes
from `BOT_PRETEND` with default `'0'`; a missing required key is caught,
logged with its name, and then `bot.check()` raises `NameError` because
`bot` was never assigned; with all keys present the bot is built and
`check` runs. -/
def mainStartup (env : String → Option String) : StartupOutcome :=
  let pretend := ((env "BOT_PRETEND").getD "0") == "1"
  match firstMissing env (requiredKeys pretend) with
  | some k => .nameErrorCrash k
  | none => .checkRan

/-! Concrete sample inputs used by witnesses and counterexamples. -/

/-- Previous snapshot with line Amarela running normally. -/
def prevAm : Snapshot := [("Amarela", ⟨"Circulação normal.", true⟩)]

/-- Current snapshot with line Amarela disrupted. -/
def curAm : Snapshot := [("Amarela", ⟨"avaria na linha", false⟩)]

/-- A previous snapshot also holding a line (`Rosa`) absent from the
current configuration. -/
def prevRosa : Snapshot := [("Amarela", ⟨"Circulação normal.", true⟩), ("Rosa", ⟨"ok", true⟩)]

/-- A publish oracle that always succeeds. -/
def pubOk : String → Option Unit := fun _ => none

/-- A publish oracle that always raises. -/
def pubFail : String → Option Unit := fun _ => some ()

/-- A `PostUpdate` oracle raising the duplicate-status error (code 187)
exactly on the chunk `"[12:00] x"`. -/
def post0 : String → Option (List (Option Nat)) :=
  fun s => if s = "[12:00] x" then some [some 187] else none

/-- A `PostUpdate` oracle raising a non-duplicate error (code 130)
exactly on the chunk `"[12:00] x"`. -/
def post1 : String → Option (List (Option Nat)) :=
  fun s => if s = "[12:00] x" then some [some 130] else none

/-- A parsed-page oracle on which every selector comes up empty. -/
def pageFail : String → Option (String × Bool) := fun _ => none

/-- A single 271-character word: its chunk would be 279 characters, so the
inner packing loop can never consume it. -/
def longWord : String := String.mk (List.replicate 271 'a')

/-- Thirty 9-character words separated by single spaces: 299 characters in
total, over the 270 limit, with every word individually fitting. -/
def sampleLongMsg : String := appendWords "aaaaaaaaa" (List.replicate 29 "aaaaaaaaa")

/-! Helper lemmas. -/

lemma lookup_none_of_not_mem (l : String) :
    ∀ xs : Snapshot, l ∉ xs.map Prod.fst → xs.lookup l = none := by
  intro xs
  induction xs with
  | nil => intro _; rfl
  | cons kv xs ih =>
    intro h
    obtain ⟨k, v⟩ := kv
    simp only [List.map_cons, List.mem_cons, not_or] at h
    simp [List.lookup, beq_eq_false_iff_ne.mpr h.1, ih h.2]

lemma notifyLoop_none_of_silent {ε : Type} (pub : String → Option ε) (prev : Snapshot) :
    ∀ cur : Snapshot, (∀ p ∈ cur, shouldNotify prev p.1 p.2 = false) →
    notifyLoop pub prev cur = none := by
  intro cur
  induction cur with
  | nil => intro _; rfl
  | cons e rest ih =>
    intro h
    obtain ⟨l, s⟩ := e
    have h1 : shouldNotify prev l s = false := h (l, s) (List.mem_cons_self _ _)
    simp [notifyLoop, h1, ih fun p hp => h p (List.mem_cons_of_mem _ hp)]

lemma notifyLoop_none_of_pub_ok {ε : Type} (pub : String → Option ε) (prev : Snapshot)
    (hpub : ∀ m, pub m = none) :
    ∀ cur : Snapshot, notifyLoop pub prev cur = none := by
  intro cur
  induction cur with
  | nil => rfl
  | cons e rest ih =>
    obtain ⟨l, s⟩ := e
    by_cases h : shouldNotify prev l s
    · simp [notifyLoop, h, hpub, ih]
    · simp [notifyLoop, h, ih]

lemma check_committed {ε : Type} (pub : String → Option ε) (prev cur : Snapshot)
    (h : (check pub prev cur).2 = none) : (check pub prev cur).1 = cur := by
  unfold check at h ⊢
  cases hn : notifyLoop pub prev cur with
  | none => rfl
  | some e => rw [hn] at h; simp at h

lemma formatMessage_shape (line : String) (st : MLStatus) :
    formatMessage line st =
      (if st.ok then okGlyph else warnGlyph) ++
        (" " ++ (STRINGS_LINE ++ (" " ++ (line ++ (": " ++
          (if endsWithDot (capitalizeFirst st.message) then capitalizeFirst st.message
           else capitalizeFirst st.message ++ ".")))))) := by
  simp [formatMessage, String.append_assoc]

lemma body_getLast_dot (m : String) :
    (if endsWithDot m then m else m ++ ".").data.getLast? = some ('.') := by
  by_cases h : endsWithDot m
  · rw [if_pos h]
    simpa [endsWithDot] using h
  · rw [if_neg h, String.data_append]
    exact List.getLast?_concat _

lemma innerLoop_eq :
    ∀ (words : List String) (part : String),
    ∃ g rest, innerLoop part words = (appendWords part g, rest) ∧ words = g ++ rest := by
  intro words
  induction words with
  | nil => intro part; exact ⟨[], [], rfl, rfl⟩
  | cons w ws ih =>
    intro part
    by_cases h : (part ++ " " ++ w).length < 270
    · obtain ⟨g, rest, h1, h2⟩ := ih (part ++ " " ++ w)
      refine ⟨w :: g, rest, ?_, by simp [h2]⟩
      rw [innerLoop, if_pos h]
      exact h1
    · refine ⟨[], w :: ws, ?_, rfl⟩
      rw [innerLoop, if_neg h]
      rfl

lemma innerLoop_length_lt :
    ∀ (words : List String) (part : String), part.length < 270 →
    (innerLoop part words).1.length < 270 := by
  intro words
  induction words with
  | nil => intro part h; exact h
  | cons w ws ih =>
    intro part h
    by_cases hf : (part ++ " " ++ w).length < 270
    · rw [innerLoop, if_pos hf]
      exact ih (part ++ " " ++ w) hf
    · rw [innerLoop, if_neg hf]
      exact h

lemma innerLoop_rest_le :
    ∀ (words : List String) (part : String), (innerLoop part words).2.length ≤ words.length := by
  intro words
  induction words with
  | nil => intro part; simp [innerLoop]
  | cons w ws ih =>
    intro part
    by_cases hf : (part ++ " " ++ w).length < 270
    · calc (innerLoop part (w :: ws)).2.length
          = (innerLoop (part ++ " " ++ w) ws).2.length := by rw [innerLoop, if_pos hf]
        _ ≤ ws.length := ih _
        _ ≤ (w :: ws).length := by simp
    · rw [innerLoop, if_neg hf]

lemma innerLoop_rest_lt (part w : String) (ws : List String)
    (h : (part ++ " " ++ w).length < 270) :
    (innerLoop part (w :: ws)).2.length ≤ ws.length := by
  rw [innerLoop, if_pos h]
  exact innerLoop_rest_le ws _

lemma appendWords_length :
    ∀ (g : List String) (p : String),
    (appendWords p g).length = p.length + ((g.map String.length).sum + g.length) := by
  intro g
  induction g with
  | nil => intro p; simp [appendWords]
  | cons w g ih =>
    intro p
    have h0 : appendWords p (w :: g) = appendWords (p ++ " " ++ w) g := rfl
    rw [h0, ih]
    have h1 : (p ++ " " ++ w).length = p.length + (" " : String).length + w.length := by
      simp [String.length_append]
    have h2 : (" " : String).length = 1 := rfl
    simp only [List.map_cons, List.sum_cons, List.length_cons]
    omega

lemma appendWords_shape :
    ∀ (g : List String) (p : String), ∃ r, appendWords p g = p ++ r := by
  intro g
  induction g with
  | nil => intro p; exact ⟨"", (String.append_empty p).symm⟩
  | cons w g ih =>
    intro p
    obtain ⟨r, hr⟩ := ih (p ++ " " ++ w)
    refine ⟨" " ++ (w ++ r), ?_⟩
    have : appendWords p (w :: g) = appendWords (p ++ " " ++ w) g := rfl
    rw [this, hr]
    simp [String.append_assoc]

lemma chunkLoop_cons (ts : String) (fuel : Nat) (w : String) (ws : List String)
    (part : String) (rest : List String) (h : innerLoop ts (w :: ws) = (part, rest)) :
    chunkLoop ts (fuel + 1) (w :: ws) =
      match chunkLoop ts fuel rest with
      | some parts => some (part :: parts)
      | none => none := by
  rw [chunkLoop, h]

lemma chunkLoop_spec (ts : String) (hts : ts.length < 270) :
    ∀ (fuel : Nat) (words : List String), words.length ≤ fuel →
    (∀ w ∈ words, (ts ++ " " ++ w).length < 270) →
    ∃ gs : List (List String),
      chunkLoop ts fuel words = some (gs.map (chunkOf ts)) ∧
      gs.join = words ∧
      (∀ g ∈ gs, g ≠ []) ∧
      (∀ g ∈ gs, (chunkOf ts g).length < 270) := by
  intro fuel
  induction fuel with
  | zero =>
    intro words hlen _
    have hw : words = [] := List.eq_nil_of_length_eq_zero (Nat.le_zero.mp hlen)
    subst hw
    exact ⟨[], rfl, rfl, by simp, by simp⟩
  | succ fuel ih =>
    intro words hlen hfit
    cases words with
    | nil => exact ⟨[], rfl, rfl, by simp, by simp⟩
    | cons w ws =>
      obtain ⟨g, rest, hinner, hsplit⟩ := innerLoop_eq (w :: ws) ts
      have hfitw : (ts ++ " " ++ w).length < 270 := hfit w (List.mem_cons_self _ _)
      have hrest_le : rest.length ≤ ws.length := by
        have := innerLoop_rest_lt ts w ws hfitw
        rw [hinner] at this
        exact this
      have hglen : g ≠ [] := by
        intro hg
        subst hg
        simp at hsplit
        have : (w :: ws).length = rest.length := by rw [hsplit]
        simp at this
        omega
      have hlen' : rest.length ≤ fuel := by
        have : ws.length ≤ fuel := Nat.succ_le_succ_iff.mp (by simpa using hlen)
        omega
      have hfit' : ∀ w' ∈ rest, (ts ++ " " ++ w').length < 270 := by
        intro w' hw'
        exact hfit w' (by rw [hsplit]; exact List.mem_append_right g hw')
      obtain ⟨gs', h1, h2, h3, h4⟩ := ih rest hlen' hfit'
      refine ⟨g :: gs', ?_, ?_, ?_, ?_⟩
      · rw [chunkLoop_cons ts fuel w ws _ _ hinner, h1]
        rfl
      · simp [h2, hsplit]
      · intro g' hg'
        rcases List.mem_cons.mp hg' with h | h
        · exact h ▸ hglen
        · exact h3 g' h
      · intro g' hg'
        rcases List.mem_cons.mp hg' with h | h
        · subst h
          have := innerLoop_length_lt (w :: ws) ts hts
          rw [hinner] at this
          exact this
        · exact h4 g' h

lemma chunkLoop_unfit_head (ts w : String) (ws : List String)
    (h : ¬ (ts ++ " " ++ w).length < 270) :
    ∀ fuel, chunkLoop ts fuel (w :: ws) = none := by
  intro fuel
  induction fuel with
  | zero => rfl
  | succ fuel ih =>
    have hinner : innerLoop ts (w :: ws) = (ts, w :: ws) := by
      rw [innerLoop, if_neg h]
    rw [chunkLoop_cons ts fuel w ws ts (w :: ws) hinner, ih]

lemma pubParts_all_ok (post : String → Option (List (Option Nat)))
    (retry : TwResult × List String × List String) :
    ∀ ps : List String, (∀ q ∈ ps, post q = none) →
    pubParts false post retry ps = (.ok, [], ps) := by
  intro ps
  induction ps with
  | nil => intro _; rfl
  | cons p ps ih =>
    intro h
    have hp : post p = none := h p (List.mem_cons_self _ _)
    have ht := ih fun q hq => h q (List.mem_cons_of_mem _ hq)
    simp [pubParts, hp, ht]

lemma pubParts_append_ok (post : String → Option (List (Option Nat)))
    (retry : TwResult × List String × List String) :
    ∀ (pre rest : List String), (∀ q ∈ pre, post q = none) →
    pubParts false post retry (pre ++ rest) =
      ((pubParts false post retry rest).1,
       (pubParts false post retry rest).2.1,
       pre ++ (pubParts false post retry rest).2.2) := by
  intro pre
  induction pre with
  | nil => intro rest _; simp
  | cons p pre ih =>
    intro rest h
    have hp : post p = none := h p (List.mem_cons_self _ _)
    have ht := ih rest fun q hq => h q (List.mem_cons_of_mem _ hq)
    simp [pubParts, hp, ht]

lemma pubParts_pretend (post : String → Option (List (Option Nat)))
    (retry : TwResult × List String × List String) :
    ∀ ps : List String, pubParts true post retry ps = (.ok, [], []) := by
  intro ps
  induction ps with
  | nil => rfl
  | cons p ps ih => simp [pubParts, ih]

lemma publishTwitter_some (pretend : Bool) (post : String → Option (List (Option Nat)))
    (ts : String) (fuel : Nat) (msg : String) (parts : List String)
    (h : chunkMsg ts msg = some parts) :
    publishTwitter pretend post ts (fuel + 1) msg =
      ((pubParts pretend post (publishTwitter pretend post ts fuel (msg ++ ".")) parts).1,
       msg :: (pubParts pretend post (publishTwitter pretend post ts fuel (msg ++ ".")) parts).2.1,
       (pubParts pretend post (publishTwitter pretend post ts fuel (msg ++ ".")) parts).2.2) := by
  rw [publishTwitter, h]

lemma publishTwitter_nochunk (pretend : Bool) (post : String → Option (List (Option Nat)))
    (ts : String) (fuel : Nat) (msg : String) (h : chunkMsg ts msg = none) :
    publishTwitter pretend post ts (fuel + 1) msg = (.hang, [msg], []) := by
  rw [publishTwitter, h]

lemma publishTwitter_all_ok (post : String → Option (List (Option Nat)))
    (ts msg : String) (fuel : Nat) (parts : List String)
    (hchunk : chunkMsg ts msg = some parts) (hok : ∀ q ∈ parts, post q = none) :
    publishTwitter false post ts (fuel + 1) msg = (.ok, [msg], parts) := by
  rw [publishTwitter_some false post ts fuel msg parts hchunk,
    pubParts_all_ok post _ parts hok]

lemma publishTwitter_pretend_no_posts (post : String → Option (List (Option Nat)))
    (ts : String) :
    ∀ (fuel : Nat) (msg : String), (publishTwitter true post ts fuel msg).2.2 = [] := by
  intro fuel
  cases fuel with
  | zero => intro msg; rfl
  | succ fuel =>
    intro msg
    cases h : chunkMsg ts msg with
    | none => rw [publishTwitter_nochunk true post ts fuel msg h]
    | some parts =>
      rw [publishTwitter_some true post ts fuel msg parts h, pubParts_pretend]

lemma getStatus_keys (page : String → Option (String × Bool)) :
    ∀ (lines : List String) (snap : Snapshot),
    getStatus page lines = .ok snap → snap.map Prod.fst = lines := by
  intro lines
  induction lines with
  | nil =>
    intro snap h
    simp only [getStatus] at h
    cases h
    rfl
  | cons l ls ih =>
    intro snap h
    simp only [getStatus] at h
    cases hp : page l with
    | none => rw [hp] at h; cases h
    | some mo =>
      rw [hp] at h
      cases hg : getStatus page ls with
      | error e => rw [hg] at h; simp at h
      | ok rest =>
        rw [hg] at h
        simp only [Except.ok.injEq] at h
        subst h
        simp [ih rest hg]

/-! Claim theorems. -/

/-- C1: for a line known in the previous state, the detector emits a
ChangeEvent if and only if the `ok` flag differs between previous and
current, or `ok` is false in the current status and the message differs;
hence identical snapshots produce zero events, and a false-to-true `ok`
flip always produces an event regardless of message equality. -/
theorem detector_known_line_change_iff :
    (∀ (prev cur : Snapshot) (l : String) (s last : MLStatus),
      prev.lookup l = some last →
      ((l, s) ∈ detectEvents prev cur ↔
        ((l, s) ∈ cur ∧ (s.ok ≠ last.ok ∨ (s.ok = false ∧ s.message ≠ last.message))))) ∧
    (∀ prev cur : Snapshot,
      (∀ p ∈ cur, ∃ last, prev.lookup p.1 = some last ∧
        last.ok = p.2.ok ∧ last.message = p.2.message) →
      detectEvents prev cur = []) ∧
    (∀ (prev cur : Snapshot) (l : String) (s last : MLStatus),
      prev.lookup l = some last → last.ok = false → s.ok = true →
      (l, s) ∈ cur → (l, s) ∈ detectEvents prev cur) := by
  refine ⟨?_, ?_, ?_⟩
  · intro prev cur l s last hl
    simp [detectEvents, List.mem_filter, shouldNotify, hl, Bool.or_eq_true, bne_iff_ne,
      Bool.and_eq_true, Bool.not_eq_true']
  · intro prev cur h
    rw [detectEvents, List.filter_eq_nil_iff]
    intro p hp
    obtain ⟨last, hl, hok, hmsg⟩ := h p hp
    simp [shouldNotify, hl, hok, hmsg]
  · intro prev cur l s last hl hlast hs hmem
    refine List.mem_filter.mpr ⟨hmem, ?_⟩
    simp [shouldNotify, hl, hlast, hs]

/-- Witness for C1 at concrete snapshots: Amarela known previously; the
detector fires on the disruption, stays silent on identical state, and
fires on the false-to-true recovery. -/
theorem detector_known_line_change_iff_witness :
    (prevAm.lookup "Amarela" = some ⟨"Circulação normal.", true⟩ ∧
      (("Amarela", (⟨"avaria na linha", false⟩ : MLStatus)) ∈ detectEvents prevAm curAm ↔
        (("Amarela", (⟨"avaria na linha", false⟩ : MLStatus)) ∈ curAm ∧
          (false ≠ true ∨ (false = false ∧ "avaria na linha" ≠ "Circulação normal."))))) ∧
    detectEvents prevAm prevAm = [] ∧
    ("Amarela", (⟨"Circulação normal.", true⟩ : MLStatus)) ∈ detectEvents curAm prevAm := by
  refine ⟨⟨by decide, ?_⟩, ?_, ?_⟩
  · exact detector_known_line_change_iff.1 prevAm curAm "Amarela"
      ⟨"avaria na linha", false⟩ ⟨"Circulação normal.", true⟩ (by decide)
  · refine detector_known_line_change_iff.2.1 prevAm prevAm ?_
    intro p hp
    have hpe : p = ("Amarela", (⟨"Circulação normal.", true⟩ : MLStatus)) := by
      simpa [prevAm] using hp
    subst hpe
    exact ⟨⟨"Circulação normal.", true⟩, by decide, rfl, rfl⟩
  · exact detector_known_line_change_iff.2.2 curAm prevAm "Amarela"
      ⟨"Circulação normal.", true⟩ ⟨"avaria na linha", false⟩
      (by decide) (by decide) (by decide) (by decide)

/-- C2: with no previous state the detector emits exactly one ChangeEvent
per line of the snapshot, in snapshot order; a line with no previous entry
always produces an event; and `get_status` builds the snapshot keys in
line-declaration order. -/
theorem detector_bootstrap_emits_all :
    (∀ cur : Snapshot, detectEvents [] cur = cur) ∧
    (∀ (prev cur : Snapshot) (l : String) (s : MLStatus),
      prev.lookup l = none → (l, s) ∈ cur → (l, s) ∈ detectEvents prev cur) ∧
    (∀ (page : String → Option (String × Bool)) (lines : List String) (snap : Snapshot),
      getStatus page lines = .ok snap → snap.map Prod.fst = lines) := by
  refine ⟨?_, ?_, getStatus_keys⟩
  · intro cur
    rw [detectEvents, List.filter_eq_self]
    intro p _
    rfl
  · intro prev cur l s hl hmem
    refine List.mem_filter.mpr ⟨hmem, ?_⟩
    simp [shouldNotify, hl]

/-- Witness for C2: the bootstrap run over the concrete current snapshot
emits it verbatim; a newly configured line fires; a fully successful parse
of the four lines lists keys in declaration order. -/
theorem detector_bootstrap_emits_all_witness :
    detectEvents [] curAm = curAm ∧
    ("Rosa", (⟨"ok", true⟩ : MLStatus)) ∈ detectEvents curAm [("Rosa", ⟨"ok", true⟩)] ∧
    (getStatus (fun _ => some ("Circulação normal.", true)) LINES =
        .ok (LINES.map fun l => (l, ⟨"Circulação normal.", true⟩)) ∧
      ((LINES.map fun l => (l, (⟨"Circulação normal.", true⟩ : MLStatus))).map Prod.fst = LINES)) := by
  refine ⟨detector_bootstrap_emits_all.1 curAm, ?_, rfl, ?_⟩
  · exact detector_bootstrap_emits_all.2.1 curAm _ "Rosa" _ (by decide) (by decide)
  · exact detector_bootstrap_emits_all.2.2 (fun _ => some ("Circulação normal.", true))
      LINES _ rfl

/-- C3 counterexample: a cycle with a change event whose publish raises
does NOT persist the fetched snapshot — the exception propagates before
`pickle.dump`, so the persisted state stays at the previous snapshot,
refuting "committed even when some publish attempts failed". -/
theorem persist_unconditional_cex :
    detectEvents prevAm curAm ≠ [] ∧
    check pubFail prevAm curAm = (prevAm, some ()) ∧
    (check pubFail prevAm curAm).1 ≠ curAm := ⟨by decide, by decide, by decide⟩

/-- C3 amended: the fetched snapshot is persisted whenever no publish
attempt raises — in particular when zero change events fired (no publish
is even attempted) and when every attempted publish succeeds — and the
commit happens only after all notifications were attempted; a raising
publish aborts the cycle before the commit, leaving the persisted state
unchanged. -/
theorem persist_policy_amended :
    (∀ (ε : Type) (pub : String → Option ε) (prev cur : Snapshot),
      detectEvents prev cur = [] → check pub prev cur = (cur, none)) ∧
    (∀ (ε : Type) (pub : String → Option ε) (prev cur : Snapshot),
      (∀ m, pub m = none) → check pub prev cur = (cur, none)) ∧
    (∀ (ε : Type) (pub : String → Option ε) (prev cur : Snapshot) (e : ε),
      notifyLoop pub prev cur = some e → check pub prev cur = (prev, some e)) := by
  refine ⟨?_, ?_, ?_⟩
  · intro ε pub prev cur h
    have hs : ∀ p ∈ cur, shouldNotify prev p.1 p.2 = false := by
      rw [detectEvents, List.filter_eq_nil_iff] at h
      intro p hp
      simpa using h p hp
    rw [check, notifyLoop_none_of_silent pub prev cur hs]
  · intro ε pub prev cur h
    rw [check, notifyLoop_none_of_pub_ok pub prev h cur]
  · intro ε pub prev cur e h
    rw [check, h]

/-- Witness for C3 amended, at concrete snapshots: identical snapshots
commit with no publish; an all-success publisher commits the new snapshot;
the failing publisher leaves the old snapshot in place. -/
theorem persist_policy_amended_witness :
    (detectEvents prevAm prevAm = [] ∧ check pubFail prevAm prevAm = (prevAm, none)) ∧
    check pubOk prevAm curAm = (curAm, none) ∧
    (notifyLoop pubFail prevAm curAm = some () ∧
      check pubFail prevAm curAm = (prevAm, some ())) := by
  refine ⟨⟨by decide, ?_⟩, ?_, by decide, ?_⟩
  · exact persist_policy_amended.1 Unit pubFail prevAm prevAm (by decide)
  · exact persist_policy_amended.2.1 Unit pubOk prevAm curAm (fun m => rfl)
  · exact persist_policy_amended.2.2 Unit pubFail prevAm curAm () (by decide)

/-- C4 counterexample: a message whose word-split total length (271)
exceeds the limit but whose single word cannot fit in a fresh chunk makes
the packing loop consume nothing and loop forever (modelled as `none`), so
no chunks at all are returned, refuting the claim as stated. -/
theorem chunking_oversized_word_cex :
    270 ≤ wordSplitTotalLen (splitSpace longWord) ∧
    chunkMsg "[12:00]" longWord = none := ⟨by decide, by decide⟩

/-- C4 amended: for a message whose word-split total length exceeds the
limit AND each of whose words fits a fresh timestamp-prefixed chunk,
chunking returns at least 2 chunks, each strictly under 270 characters
including the prefix, each beginning with the same timestamp marker, and
the chunks' word groups concatenate back to the original word sequence;
with an oversized word the packing loop never terminates. -/
theorem chunking_amended (ts msg : String)
    (hts : ts.length < 270)
    (hfit : ∀ w ∈ splitSpace msg, (ts ++ " " ++ w).length < 270)
    (hlong : 270 ≤ wordSplitTotalLen (splitSpace msg)) :
    ∃ (parts : List String) (gs : List (List String)),
      chunkMsg ts msg = some parts ∧
      parts = gs.map (chunkOf ts) ∧
      2 ≤ parts.length ∧
      (∀ p ∈ parts, p.length < 270) ∧
      (∀ p ∈ parts, ∃ r, p = ts ++ r) ∧
      gs.join = splitSpace msg ∧
      (∀ g ∈ gs, g ≠ []) := by
  obtain ⟨gs, h1, h2, h3, h4⟩ :=
    chunkLoop_spec ts hts (splitSpace msg).length (splitSpace msg) le_rfl hfit
  refine ⟨gs.map (chunkOf ts), gs, h1, rfl, ?_, ?_, ?_, h2, h3⟩
  · rw [List.length_map]
    rcases gs with _ | ⟨g, gs'⟩
    · exfalso
      have hnil : splitSpace msg = [] := by simpa using h2.symm
      rw [hnil] at hlong
      simp [wordSplitTotalLen] at hlong
    · rcases gs' with _ | ⟨g2, gs''⟩
      · exfalso
        have hg : g = splitSpace msg := by simpa using h2
        have hgne : g ≠ [] := h3 g (by simp)
        have hlen : (chunkOf ts g).length < 270 := h4 g (by simp)
        have hal : (chunkOf ts g).length =
            ts.length + ((g.map String.length).sum + g.length) := appendWords_length g ts
        have hW : wordSplitTotalLen (splitSpace msg) =
            (g.map String.length).sum + (g.length - 1) := by rw [← hg]; rfl
        have hg1 : 0 < g.length := List.length_pos.mpr hgne
        rw [hW] at hlong
        rw [hal] at hlen
        omega
      · simp
  · intro p hp
    obtain ⟨g, hg, rfl⟩ := List.mem_map.mp hp
    exact h4 g hg
  · intro p hp
    obtain ⟨g, hg, rfl⟩ := List.mem_map.mp hp
    exact appendWords_shape g ts

/-- Witness for C4 amended: a 299-character message of thirty 9-character
words over timestamp `[12:00]` satisfies the hypotheses, so it splits into
at least two under-limit prefixed chunks reproducing the word sequence. -/
theorem chunking_amended_witness :
    ("[12:00]" : String).length < 270 ∧
    (∀ w ∈ splitSpace sampleLongMsg, (("[12:00]" : String) ++ " " ++ w).length < 270) ∧
    270 ≤ wordSplitTotalLen (splitSpace sampleLongMsg) ∧
    (∃ (parts : List String) (gs : List (List String)),
      chunkMsg "[12:00]" sampleLongMsg = some parts ∧
      parts = gs.map (chunkOf "[12:00]") ∧
      2 ≤ parts.length ∧
      (∀ p ∈ parts, p.length < 270) ∧
      (∀ p ∈ parts, ∃ r, p = "[12:00]" ++ r) ∧
      gs.join = splitSpace sampleLongMsg ∧
      (∀ g ∈ gs, g ≠ [])) :=
  ⟨by decide, by decide, by decide,
    chunking_amended "[12:00]" sampleLongMsg (by decide) (by decide) (by decide)⟩

/-- C5: when a post attempt fails with the duplicate-status code (187),
`publish_twitter` performs exactly one recursive retry for that failure,
on the original unchunked message with a period appended, re-running the
full chunk-and-publish sequence (and then finishing the remaining chunks);
any other platform error propagates to the caller with no retry. -/
theorem duplicate_retry_once :
    (∀ (post : String → Option (List (Option Nat))) (ts msg : String) (fuel : Nat)
       (pre suf parts2 : List String) (p : String) (errs : List (Option Nat)),
      chunkMsg ts msg = some (pre ++ p :: suf) →
      (∀ q ∈ pre, post q = none) →
      post p = some errs →
      isDuplicateErr errs = true →
      (∀ q ∈ suf, post q = none) →
      chunkMsg ts (msg ++ ".") = some parts2 →
      (∀ q ∈ parts2, post q = none) →
      publishTwitter false post ts (fuel + 2) msg =
        (.ok, [msg, msg ++ "."], pre ++ p :: (parts2 ++ suf))) ∧
    (∀ (post : String → Option (List (Option Nat))) (ts msg : String) (fuel : Nat)
       (pre suf : List String) (p : String) (errs : List (Option Nat)),
      chunkMsg ts msg = some (pre ++ p :: suf) →
      (∀ q ∈ pre, post q = none) →
      post p = some errs →
      isDuplicateErr errs = false →
      publishTwitter false post ts (fuel + 2) msg = (.err errs, [msg], pre ++ [p])) := by
  constructor
  · intro post ts msg fuel pre suf parts2 p errs h1 h2 h3 h4 h5 h6 h7
    have hretry : publishTwitter false post ts (fuel + 1) (msg ++ ".") =
        (.ok, [msg ++ "."], parts2) :=
      publishTwitter_all_ok post ts (msg ++ ".") fuel parts2 h6 h7
    have hsuf : pubParts false post
        ((.ok, [msg ++ "."], parts2) : TwResult × List String × List String) suf =
        (.ok, [], suf) := pubParts_all_ok post _ suf h5
    have hstep : pubParts false post
        ((.ok, [msg ++ "."], parts2) : TwResult × List String × List String) (p :: suf) =
        (.ok, [msg ++ "."], p :: (parts2 ++ suf)) := by
      simp [pubParts, h3, h4, hsuf]
    have hpre := pubParts_append_ok post
      ((.ok, [msg ++ "."], parts2) : TwResult × List String × List String) pre (p :: suf) h2
    rw [hstep] at hpre
    show publishTwitter false post ts (fuel + 1 + 1) msg = _
    rw [publishTwitter_some false post ts (fuel + 1) msg (pre ++ p :: suf) h1, hretry, hpre]
  · intro post ts msg fuel pre suf p errs h1 h2 h3 h4
    have hstep : pubParts false post
        (publishTwitter false post ts (fuel + 1) (msg ++ ".")) (p :: suf) =
        (.err errs, [], [p]) := by
      simp [pubParts, h3, h4]
    have hpre := pubParts_append_ok post
      (publishTwitter false post ts (fuel + 1) (msg ++ ".")) pre (p :: suf) h2
    rw [hstep] at hpre
    show publishTwitter false post ts (fuel + 1 + 1) msg = _
    rw [publishTwitter_some false post ts (fuel + 1) msg (pre ++ p :: suf) h1, hpre]

/-- Witness for C5: over the message `"x"`, an oracle failing with
code 187 on its only chunk leads to one retried publish of `"x."` and
success; an oracle failing with code 130 propagates the error with no
retry. -/
theorem duplicate_retry_once_witness :
    (post0 "[12:00] x" = some [some 187] ∧ isDuplicateErr [some 187] = true ∧
      publishTwitter false post0 "[12:00]" 2 "x" =
        (.ok, ["x", "x."], ["[12:00] x", "[12:00] x."])) ∧
    (post1 "[12:00] x" = some [some 130] ∧ isDuplicateErr [some 130] = false ∧
      publishTwitter false post1 "[12:00]" 2 "x" =
        (.err [some 130], ["x"], ["[12:00] x"])) := by
  refine ⟨⟨by decide, by decide, ?_⟩, ⟨by decide, by decide, ?_⟩⟩
  · exact duplicate_retry_once.1 post0 "[12:00]" "x" 0 [] [] ["[12:00] x."] "[12:00] x"
      [some 187] (by decide) (by decide) (by decide) (by decide) (by decide)
      (by decide) (by decide)
  · exact duplicate_retry_once.2 post1 "[12:00]" "x" 0 [] [] "[12:00] x"
      [some 130] (by decide) (by decide) (by decide) (by decide)

/-- C6: for any line and non-empty message, the formatted notification
ends in a period and begins with the glyph selected by the `ok` flag (one
of exactly two distinct glyphs); in particular line Amarela with status
(ok = false, "avaria na linha") formats to
`"⚠️ Linha Amarela: Avaria na linha."`. -/
theorem format_glyph_and_period :
    (∀ (line : String) (st : MLStatus), st.message ≠ "" →
      (formatMessage line st).data.getLast? = some ('.') ∧
      ∃ r, formatMessage line st = (if st.ok then okGlyph else warnGlyph) ++ r) ∧
    okGlyph ≠ warnGlyph ∧
    formatMessage "Amarela" ⟨"avaria na linha", false⟩ =
      "⚠️ Linha Amarela: Avaria na linha." := by
  refine ⟨?_, by decide, by decide⟩
  intro line st _
  constructor
  · have hm2 := body_getLast_dot (capitalizeFirst st.message)
    rw [formatMessage_shape]
    simp only [String.data_append, List.getLast?_append, hm2, Option.or_some]
  · exact ⟨_, formatMessage_shape line st⟩

/-- Witness for C6 at the concrete disrupted Amarela status. -/
theorem format_glyph_and_period_witness :
    ("avaria na linha" : String) ≠ "" ∧
    (formatMessage "Amarela" ⟨"avaria na linha", false⟩).data.getLast? = some ('.') ∧
    ∃ r, formatMessage "Amarela" ⟨"avaria na linha", false⟩ =
      (if (false : Bool) then okGlyph else warnGlyph) ++ r := by
  refine ⟨by decide, ?_⟩
  exact format_glyph_and_period.1 "Amarela" ⟨"avaria na linha", false⟩ (by decide)

/-- C7: in pretend mode `publish` never attempts a Twitter post and still
logs the message, but — contrary to the claim — `publish_telegram` ignores
the pretend flag, so an outbound Telegram send is still performed for
every configured destination (concrete evaluation in the last conjunct). -/
theorem pretend_skips_twitter_not_telegram :
    (∀ (post : String → Option (List (Option Nat))) (ts : String) (fuel : Nat)
       (dests : List String) (msg : String),
      (publishDispatch true post ts fuel dests msg).twitterPosts = [] ∧
      (publishDispatch true post ts fuel dests msg).logged = [msg]) ∧
    (publishDispatch true (fun _ => none) "[12:00]" 1 ["chat1"] "hello").telegramSends =
      [("chat1", "hello")] := by
  refine ⟨?_, by decide⟩
  intro post ts fuel dests msg
  exact ⟨publishTwitter_pretend_no_posts post ts fuel msg, rfl⟩

/-- C8: with `BOT_STATE_FILE` unset (or any required key missing), the
`__main__` block logs a diagnostic naming the missing variable and then
crashes with a raw `NameError` at `bot.check()` instead of exiting
cleanly; with every key present the check cycle runs. -/
theorem missing_env_crash :
    mainStartup (fun _ => none) = .nameErrorCrash "BOT_STATE_FILE" ∧
    mainStartup (fun k => if k = "BOT_STATE_FILE" then some "/tmp/state"
      else if k = "BOT_PRETEND" then some "1" else none) = .nameErrorCrash "TELEGRAM_KEY" ∧
    mainStartup (fun k => some k) = .checkRan := ⟨by decide, by decide, by decide⟩

/-- C9: a fetch/parse failure aborts the whole cycle with that failure and
leaves the persisted state unchanged — nothing is committed. -/
theorem fetch_failure_aborts :
    ∀ (ε : Type) (page : String → Option (String × Bool)) (lines : List String)
      (pub : String → Option ε) (prev : Snapshot),
      getStatus page lines = .error () →
      runCheck page lines pub prev = (prev, some .fetchFailed) := by
  intro ε page lines pub prev h
  rw [runCheck, h]

/-- Witness for C9: a page on which every selector fails makes the cycle
abort with `fetchFailed` and keep the previous snapshot. -/
theorem fetch_failure_aborts_witness :
    getStatus pageFail LINES = .error () ∧
    runCheck pageFail LINES pubOk prevAm = (prevAm, some .fetchFailed) :=
  ⟨rfl, fetch_failure_aborts Unit pageFail LINES pubOk prevAm rfl⟩

/-- C10: after a completed cycle the persisted keys are exactly the
fetched snapshot's keys; a line present only in the previous state emits
no event and is dropped from the persisted state. -/
theorem persisted_keys_match_snapshot :
    (∀ (ε : Type) (pub : String → Option ε) (prev cur : Snapshot),
      (check pub prev cur).2 = none →
      ((check pub prev cur).1).map Prod.fst = cur.map Prod.fst) ∧
    (∀ (prev cur : Snapshot) (l : String) (s : MLStatus),
      l ∉ cur.map Prod.fst → (l, s) ∉ detectEvents prev cur) ∧
    (∀ (ε : Type) (pub : String → Option ε) (prev cur : Snapshot) (l : String),
      (check pub prev cur).2 = none → l ∉ cur.map Prod.fst →
      ((check pub prev cur).1).lookup l = none) := by
  refine ⟨?_, ?_, ?_⟩
  · intro ε pub prev cur h
    rw [check_committed pub prev cur h]
  · intro prev cur l s hcur hev
    exact hcur (List.mem_map.mpr ⟨(l, s), (List.mem_filter.mp hev).1, rfl⟩)
  · intro ε pub prev cur l h hcur
    rw [check_committed pub prev cur h]
    exact lookup_none_of_not_mem l cur hcur

/-- Witness for C10: with the stale line `Rosa` in the previous state and
an all-success publisher, the cycle commits exactly the fetched keys,
emits nothing for `Rosa`, and drops it from the persisted state. -/
theorem persisted_keys_match_snapshot_witness :
    (check pubOk prevRosa curAm).2 = none ∧
    ((check pubOk prevRosa curAm).1).map Prod.fst = curAm.map Prod.fst ∧
    ("Rosa" ∉ curAm.map Prod.fst) ∧
    (("Rosa", (⟨"ok", true⟩ : MLStatus)) ∉ detectEvents prevRosa curAm) ∧
    ((check pubOk prevRosa curAm).1).lookup "Rosa" = none := by
  refine ⟨by decide, ?_, by decide, ?_, ?_⟩
  · exact persisted_keys_match_snapshot.1 Unit pubOk prevRosa curAm (by decide)
  · exact persisted_keys_match_snapshot.2.1 prevRosa curAm "Rosa" ⟨"ok", true⟩ (by decide)
  · exact persisted_keys_match_snapshot.2.2 Unit pubOk prevRosa curAm "Rosa"
      (by decide) (by decide)
